import Mathlib

/-!
Verification of the realtime synchronization core of the collaborative-canvas
repository: the PartyKit room relay (`app-realtime/partykit/src/canvas.ts`),
its mock room semantics (`__tests__/helpers/party-mocks.ts`), the browser sync
client (`app-web/src/hooks/use-partykit.ts`) and the Yjs shape hook
(`app-web/src/hooks/use-yjs-shapes.ts`), shallowly embedded as pure Lean
functions.
-/

namespace AppTemplate

/-- Opaque byte sequences carried on the wire (JS `ArrayBuffer` / `Uint8Array`
contents). Only identity of the blob matters to the transport code. -/
abbrev Bytes := List Nat

/-- JSON values, as produced by `JSON.parse` and consumed by `JSON.stringify`.
Numbers are modelled as integers: every numeric literal appearing in the
relay's own control messages (`users` counts) is an integer, and no claim
depends on non-integral numerics. Object fields keep their insertion order,
as JS objects do. -/
inductive Json where
  | null : Json
  | bool : Bool → Json
  | num : Int → Json
  | str : String → Json
  | arr : List Json → Json
  | obj : List (String × Json) → Json

/-- The double-quote character. -/
def chQuote : Char := Char.ofNat 34

/-- The backslash character. -/
def chBackslash : Char := Char.ofNat 92

/-- The opening curly-brace character. -/
def chLBrace : Char := Char.ofNat 123

/-- The closing curly-brace character. -/
def chRBrace : Char := Char.ofNat 125

/-- JSON string escaping as done by `JSON.stringify`: quote and backslash are
escaped; other characters pass through. -/
def escapeChar (c : Char) : List Char :=
  if c = chQuote then [chBackslash, chQuote]
  else if c = chBackslash then [chBackslash, chBackslash]
  else [c]

/-- Encode a string as a quoted JSON string literal. -/
def encodeJsonString (s : String) : String :=
  String.mk ([chQuote] ++ (s.data.map escapeChar).foldr (· ++ ·) [] ++ [chQuote])

mutual

/-- `JSON.stringify` on the modelled JSON values. -/
def jsonStringify : Json → String
  | Json.null => "null"
  | Json.bool true => "true"
  | Json.bool false => "false"
  | Json.num n => toString n
  | Json.str s => encodeJsonString s
  | Json.arr xs => "[" ++ stringifyArr xs ++ "]"
  | Json.obj fs => String.mk [chLBrace] ++ stringifyObj fs ++ String.mk [chRBrace]

/-- Comma-separated serialization of a JSON array's elements. -/
def stringifyArr : List Json → String
  | [] => ""
  | [x] => jsonStringify x
  | x :: y :: xs => jsonStringify x ++ "," ++ stringifyArr (y :: xs)

/-- Comma-separated serialization of a JSON object's fields. -/
def stringifyObj : List (String × Json) → String
  | [] => ""
  | [(k, v)] => encodeJsonString k ++ ":" ++ jsonStringify v
  | (k, v) :: f :: fs =>
      encodeJsonString k ++ ":" ++ jsonStringify v ++ "," ++ stringifyObj (f :: fs)

end

/-- JSON whitespace. -/
def isWs (c : Char) : Bool :=
  c = ' ' || c = Char.ofNat 9 || c = Char.ofNat 10 || c = Char.ofNat 13

/-- Drop leading JSON whitespace. -/
def skipWs : List Char → List Char
  | [] => []
  | c :: cs => if isWs c then skipWs cs else c :: cs

/-- Decode the character following a backslash in a JSON string literal. -/
def unescape (c : Char) : Option Char :=
  if c = chQuote then some chQuote
  else if c = chBackslash then some chBackslash
  else if c = '/' then some '/'
  else if c = 'n' then some (Char.ofNat 10)
  else if c = 't' then some (Char.ofNat 9)
  else if c = 'r' then some (Char.ofNat 13)
  else if c = 'b' then some (Char.ofNat 8)
  else if c = 'f' then some (Char.ofNat 12)
  else none

/-- Parse the body of a JSON string literal (after the opening quote), up to
and including the closing quote; returns the decoded characters and the rest
of the input. -/
def parseStringBody : List Char → Option (List Char × List Char)
  | [] => none
  | c :: cs =>
    if c = chQuote then some ([], cs)
    else if c = chBackslash then
      match cs with
      | [] => none
      | e :: cs2 =>
        match unescape e with
        | none => none
        | some ec =>
          match parseStringBody cs2 with
          | none => none
          | some (body, rest) => some (ec :: body, rest)
    else
      match parseStringBody cs with
      | none => none
      | some (body, rest) => some (c :: body, rest)

/-- Split a maximal run of decimal digits off the front of the input. -/
def takeDigits : List Char → List Char × List Char
  | [] => ([], [])
  | c :: cs =>
    if c.isDigit then
      let (ds, rest) := takeDigits cs
      (c :: ds, rest)
    else ([], c :: cs)

/-- Numeric value of a digit run. -/
def digitsToNat (ds : List Char) : Nat :=
  ds.foldl (fun a c => a * 10 + (c.toNat - 48)) 0

/-- Match a literal character sequence at the front of the input. -/
def dropLit : List Char → List Char → Option (List Char)
  | [], cs => some cs
  | _, [] => none
  | p :: ps, c :: cs => if p = c then dropLit ps cs else none

mutual

/-- Recursive-descent JSON value parser (fueled; fuel bounds nesting and is
always sufficient when set above the input length). Models `JSON.parse`:
accepts objects, arrays, strings, integers, `true`, `false`, `null`. -/
def parseJsonAux : Nat → List Char → Option (Json × List Char)
  | 0, _ => none
  | Nat.succ fuel, input =>
    match skipWs input with
    | [] => none
    | c :: rest =>
      if c = chQuote then
        match parseStringBody rest with
        | none => none
        | some (body, r) => some (Json.str (String.mk body), r)
      else if c = chLBrace then
        match skipWs rest with
        | [] => none
        | d :: r2 =>
          if d = chRBrace then some (Json.obj [], r2)
          else parseObjItems fuel (d :: r2)
      else if c = '[' then
        match skipWs rest with
        | [] => none
        | d :: r2 =>
          if d = ']' then some (Json.arr [], r2)
          else parseArrItems fuel (d :: r2)
      else if c = 't' then
        match dropLit ['r', 'u', 'e'] rest with
        | none => none
        | some r => some (Json.bool true, r)
      else if c = 'f' then
        match dropLit ['a', 'l', 's', 'e'] rest with
        | none => none
        | some r => some (Json.bool false, r)
      else if c = 'n' then
        match dropLit ['u', 'l', 'l'] rest with
        | none => none
        | some r => some (Json.null, r)
      else if c = '-' then
        match takeDigits rest with
        | ([], _) => none
        | (ds, r) => some (Json.num (-(Int.ofNat (digitsToNat ds))), r)
      else if c.isDigit then
        match takeDigits (c :: rest) with
        | ([], _) => none
        | (ds, r) => some (Json.num (Int.ofNat (digitsToNat ds)), r)
      else none

/-- Parse the elements of a non-empty JSON array, consuming the closing
bracket. -/
def parseArrItems : Nat → List Char → Option (Json × List Char)
  | 0, _ => none
  | Nat.succ fuel, input =>
    match parseJsonAux fuel input with
    | none => none
    | some (v, rest) =>
      match skipWs rest with
      | [] => none
      | c :: r2 =>
        if c = ',' then
          match parseArrItems fuel r2 with
          | some (Json.arr vs, r3) => some (Json.arr (v :: vs), r3)
          | _ => none
        else if c = ']' then some (Json.arr [v], r2)
        else none

/-- Parse the fields of a non-empty JSON object, consuming the closing
brace. -/
def parseObjItems : Nat → List Char → Option (Json × List Char)
  | 0, _ => none
  | Nat.succ fuel, input =>
    match skipWs input with
    | [] => none
    | c :: rest =>
      if c = chQuote then
        match parseStringBody rest with
        | none => none
        | some (key, r1) =>
          match skipWs r1 with
          | [] => none
          | d :: r2 =>
            if d = ':' then
              match parseJsonAux fuel r2 with
              | none => none
              | some (v, r3) =>
                match skipWs r3 with
                | [] => none
                | e :: r4 =>
                  if e = ',' then
                    match parseObjItems fuel r4 with
                    | some (Json.obj fs, r5) =>
                        some (Json.obj ((String.mk key, v) :: fs), r5)
                    | _ => none
                  else if e = chRBrace then
                    some (Json.obj [(String.mk key, v)], r4)
                  else none
            else none
      else none

end

/-- `JSON.parse`: parse a complete JSON document, allowing surrounding
whitespace, rejecting trailing garbage. `none` models a thrown `SyntaxError`. -/
def jsonParse (s : String) : Option Json :=
  match parseJsonAux (s.data.length + 1) s.data with
  | none => none
  | some (v, rest) => if (skipWs rest).isEmpty then some v else none

/-- Modelled from the spec: the Yjs CRDT document replica is an external
library dependency, not repository code. The spec treats it as a black box
holding the canvas's shapes, whose binary-update merge is idempotent,
commutative and associative, and whose convergence statement compares
replicas as sets. A replica is therefore a finite set of (opaquely named)
shape entries. -/
abbrev YDoc := Finset String

/-- Modelled from the spec: a binary CRDT update delta, identified with the
set of shape entries it introduces. The relay treats the wire blob as opaque;
the blob is represented here by its decoded meaning. -/
abbrev YUpdate := Finset String

/-- Modelled from the spec: `Y.applyUpdate` merges an update into a replica
(idempotent, commutative, associative merge). -/
def applyUpdate (d : YDoc) (u : YUpdate) : YDoc := d ∪ u

/-- Modelled from the spec: `Y.encodeStateAsUpdate` serializes the full
current state of a replica as one binary snapshot/update. -/
def encodeStateAsUpdate (d : YDoc) : YUpdate := d

/-- Modelled from the spec: the number of shapes a replica holds. -/
def shapeCount (d : YDoc) : Nat := d.card

/-- A wire frame the relay sends: binary CRDT payload or a text frame. -/
inductive WireMsg where
  | binary : YUpdate → WireMsg
  | text : String → WireMsg
deriving DecidableEq

/-- A wire frame the relay receives (`onMessage` takes
`string | ArrayBuffer`). -/
inductive InMsg where
  | binary : YUpdate → InMsg
  | text : String → InMsg

/-- A peer connection, embedding the mock `Party.Connection`: its opaque id
is the only addressable handle. -/
structure Conn where
  id : String
deriving DecidableEq

/-- A room, embedding `createMockRoom`: a room id and the connections
currently registered in the room's connection map (in insertion order; the
map keyed by id makes the ids unique). -/
structure Room where
  id : String
  conns : List Conn

/-- Embeds `createMockRoom.broadcast` (party-mocks.ts): send the message to
every registered connection whose id is not in the exclusion list. A
delivery is recorded as (recipient id, payload). -/
def Room.broadcast (room : Room) (msg : WireMsg) (except : List String) :
    List (String × WireMsg) :=
  (room.conns.filter (fun c => !(except.contains c.id))).map (fun c => (c.id, msg))

/-- The observable effects of one relay handler invocation: `conn.send` /
broadcast deliveries as (recipient id, payload), `console.log` lines,
`console.error` lines, and `conn.close` calls (the relay never closes a
connection, so this channel records that nothing is closed). -/
structure Effects where
  sends : List (String × WireMsg)
  logs : List String
  errs : List String
  closes : List String

/-- The JSON `sync` control message, `JSON.stringify({type:"sync",users:n})`
(canvas.ts lines 50-55). -/
def syncMessage (users : Nat) : String :=
  jsonStringify (Json.obj [("type", Json.str "sync"), ("users", Json.num users)])

/-- The JSON `user-left` control message,
`JSON.stringify({type:"user-left",userId:id})` (canvas.ts lines 88-94). -/
def userLeftMessage (userId : String) : String :=
  jsonStringify (Json.obj [("type", Json.str "user-left"), ("userId", Json.str userId)])

/-- Embeds `CanvasParty.onConnect` (canvas.ts lines 39-56): log, unicast the
binary snapshot of the room's document to the new peer, then unicast the
`sync` JSON message with the length of the room's registered connections.
Per the repository's tests, `onConnect` runs before the joiner is added to
the room's connection map, so `room.conns` holds exactly the *other* peers. -/
def onConnect (doc : YDoc) (room : Room) (conn : Conn) : YDoc × Effects :=
  (doc,
   { sends := [(conn.id, WireMsg.binary (encodeStateAsUpdate doc)),
               (conn.id, WireMsg.text (syncMessage room.conns.length))],
     logs := ["User " ++ conn.id ++ " connected to room " ++ room.id],
     errs := [],
     closes := [] })

/-- Embeds `CanvasParty.onMessage` (canvas.ts lines 61-79): a binary payload
is merged into the room's document and broadcast to everyone except the
sender; a text payload is JSON-parsed and, on success, broadcast verbatim to
everyone except the sender; on parse failure it is dropped and the error
logged. -/
def onMessage (doc : YDoc) (room : Room) (msg : InMsg) (sender : Conn) :
    YDoc × Effects :=
  match msg with
  | InMsg.binary u =>
      (applyUpdate doc u,
       { sends := room.broadcast (WireMsg.binary u) [sender.id],
         logs := [], errs := [], closes := [] })
  | InMsg.text s =>
      match jsonParse s with
      | some _ =>
          (doc,
           { sends := room.broadcast (WireMsg.text s) [sender.id],
             logs := [], errs := [], closes := [] })
      | none =>
          (doc,
           { sends := [], logs := [],
             errs := ["Failed to parse message"], closes := [] })

/-- Embeds `CanvasParty.onClose` (canvas.ts lines 84-95): log, then broadcast
the `user-left` JSON message to every connection except the departing one. -/
def onClose (doc : YDoc) (room : Room) (conn : Conn) : YDoc × Effects :=
  (doc,
   { sends := room.broadcast (WireMsg.text (userLeftMessage conn.id)) [conn.id],
     logs := ["User " ++ conn.id ++ " disconnected from room " ++ room.id],
     errs := [],
     closes := [] })

/-- Embeds `CanvasParty.onError` (canvas.ts lines 100-102): log the error;
nothing else happens. -/
def onError (doc : YDoc) (conn : Conn) : YDoc × Effects :=
  (doc,
   { sends := [], logs := [],
     errs := ["Error for user " ++ conn.id], closes := [] })

/-- A value handed to the client's `send` primitive: an `ArrayBuffer`, a
`Uint8Array`, or any other (JSON-serializable) value. -/
inductive SendData where
  | arrayBuffer : Bytes → SendData
  | uint8Array : Bytes → SendData
  | jsonValue : Json → SendData

/-- A frame the client puts on the wire. -/
inductive ClientOut where
  | binary : Bytes → ClientOut
  | text : String → ClientOut

/-- Embeds `usePartyKit`'s `send` (use-partykit.ts lines 382-400): if the
socket handle is not available (the connection has not been established yet),
return without sending — nothing is queued and no error is surfaced;
otherwise an `ArrayBuffer` or `Uint8Array` is sent as-is and any other value
is sent as `JSON.stringify` text. The returned `Option` is the complete wire
effect: `none` means nothing was sent. -/
def send (socketAvailable : Bool) (data : SendData) : Option ClientOut :=
  if !socketAvailable then none
  else
    match data with
    | SendData.arrayBuffer b => some (ClientOut.binary b)
    | SendData.uint8Array b => some (ClientOut.binary b)
    | SendData.jsonValue v => some (ClientOut.text (jsonStringify v))

/-- The `event.data` of an inbound transport message: an `ArrayBuffer`, a
`Blob` wrapping the same flat bytes, a text frame, or some other value. -/
inductive EventData where
  | arrayBuffer : Bytes → EventData
  | blob : Bytes → EventData
  | str : String → EventData
  | other : EventData

/-- What the client's message callback is given. -/
inductive MsgPayload where
  | binary : Bytes → MsgPayload
  | json : Json → MsgPayload
  | passthrough : MsgPayload

/-- Which consumer callback one inbound frame reaches: the message callback
(with a payload) or the error callback. -/
inductive Delivery where
  | message : MsgPayload → Delivery
  | error : Delivery

/-- Embeds `usePartyKit`'s `handleMessage` (use-partykit.ts lines 310-351):
an `ArrayBuffer` is forwarded to the message callback as-is; a `Blob` is
decoded to a flat `ArrayBuffer` and forwarded the same way; a string is
JSON-parsed; after a successful parse the logging statement on line 332
reads `parsed.type`, which throws a TypeError when the parsed value is JS
`null` (property access on any other JSON result value is defined), so a
`null` document is routed to the error callback by the enclosing catch;
every other successfully parsed value is forwarded to the message callback;
a parse failure is routed to the error callback; other inbound values pass
through to the message callback. -/
def handleMessage : EventData → Delivery
  | EventData.arrayBuffer b => Delivery.message (MsgPayload.binary b)
  | EventData.blob b => Delivery.message (MsgPayload.binary b)
  | EventData.str s =>
      match jsonParse s with
      | some Json.null => Delivery.error
      | some v => Delivery.message (MsgPayload.json v)
      | none => Delivery.error
  | EventData.other => Delivery.message MsgPayload.passthrough

/-- A canvas shape as stored in the Yjs shapes array: an id plus its other
fields (kept as ordered JSON fields, as a JS object). -/
structure Shape where
  id : String
  fields : List (String × Json)

/-- A `Partial<Shape>` argument to `updateShape`: the fields being updated,
with an optional replacement id. -/
structure ShapePatch where
  newId : Option String
  fields : List (String × Json)

/-- JS object spread `\x7b...base, ...upd\x7d` on field lists: base keys in
order with values overridden by `upd`, then `upd`'s new keys in order. -/
def spreadFields (base upd : List (String × Json)) : List (String × Json) :=
  (base.map (fun kv =>
    match upd.lookup kv.1 with
    | some v => (kv.1, v)
    | none => kv))
  ++ upd.filter (fun kv => (base.lookup kv.1).isNone)

/-- The merged shape `\x7b...current, ...updates\x7d` built by
`updateShape`. -/
def mergeShape (current : Shape) (patch : ShapePatch) : Shape :=
  { id := patch.newId.getD current.id,
    fields := spreadFields current.fields patch.fields }

/-- `Y.Array.delete(i, 1)`. -/
def yarrDelete (l : List Shape) (i : Nat) : List Shape :=
  l.take i ++ l.drop (i + 1)

/-- `Y.Array.insert(i, [s])`. -/
def yarrInsert (l : List Shape) (i : Nat) (s : Shape) : List Shape :=
  l.take i ++ [s] ++ l.drop i

/-- Embeds `useYjsShapes`'s `updateShape` (use-yjs-shapes.ts lines 238-251):
look the id up in the shapes list; if absent, return unchanged with no
Yjs mutation (so no local-change event and nothing sent); if present, delete
the old shape and insert the merged one at the same index, each mutation
firing one local-change event (recorded as a unit in the second component,
which drives the `doc.on` update handler's `send`). -/
def updateShape (shapes : List Shape) (id : String) (patch : ShapePatch) :
    List Shape × List Unit :=
  match shapes.findIdx? (fun s => s.id == id) with
  | none => (shapes, [])
  | some i =>
      match shapes.get? i with
      | none => (shapes, [])
      | some current =>
          (yarrInsert (yarrDelete shapes i) i (mergeShape current patch),
           [(), ()])

/-- Embeds `useYjsShapes`'s `deleteShape` (use-yjs-shapes.ts lines 256-265):
look the id up; if absent, return unchanged with no mutation and no event;
if present, delete the shape at that index, firing one local-change event. -/
def deleteShape (shapes : List Shape) (id : String) : List Shape × List Unit :=
  match shapes.findIdx? (fun s => s.id == id) with
  | none => (shapes, [])
  | some i => (yarrDelete shapes i, [()])

/-- A connection that is registered in the room and is not the excluded id
receives the broadcast payload. -/
theorem mem_broadcast_of_ne (room : Room) (msg : WireMsg) (ex : String) (c : Conn)
    (hc : c ∈ room.conns) (hne : c.id ≠ ex) :
    (c.id, msg) ∈ room.broadcast msg [ex] := by
  have hp : (!([ex].contains c.id)) = true := by simp [hne]
  exact List.mem_map_of_mem _ (List.mem_filter.2 ⟨hc, hp⟩)

/-- The excluded id receives nothing from a broadcast. -/
theorem not_mem_broadcast_excluded (room : Room) (msg : WireMsg) (ex : String)
    (m : WireMsg) : (ex, m) ∉ room.broadcast msg [ex] := by
  intro hm
  obtain ⟨c, hcf, heq⟩ := List.mem_map.1 hm
  have hpc := (List.mem_filter.1 hcf).2
  have hid : c.id = ex := congrArg Prod.fst heq
  simp [hid] at hpc

/-- Every payload a broadcast delivers is the broadcast message itself. -/
theorem broadcast_payload_eq (room : Room) (msg : WireMsg) (ex : List String) :
    ∀ p ∈ room.broadcast msg ex, p.2 = msg := by
  intro p hp
  obtain ⟨c, _, heq⟩ := List.mem_map.1 hp
  exact (congrArg Prod.snd heq).symm

/-- Auxiliary induction for `broadcast_count_one`, over the connection
list. -/
theorem count_broadcast_aux (msg : WireMsg) (ex : String) (c : Conn) :
    ∀ l : List Conn, (l.map Conn.id).Nodup → c ∈ l → c.id ≠ ex →
      ((l.filter (fun d => !([ex].contains d.id))).map
        (fun d : Conn => (d.id, msg))).count (c.id, msg) = 1 := by
  intro l
  induction l with
  | nil => intro _ hc _; exact absurd hc (List.not_mem_nil c)
  | cons d l ih =>
    intro hnd hc hne
    rw [List.map_cons, List.nodup_cons] at hnd
    obtain ⟨hdn, hnd2⟩ := hnd
    rcases List.mem_cons.1 hc with hcd | hcl
    · subst hcd
      have hpd : (!([ex].contains c.id)) = true := by simp [hne]
      rw [List.filter_cons, if_pos hpd, List.map_cons, List.count_cons_self]
      have hnm : ((c.id, msg)) ∉ (l.filter (fun d => !([ex].contains d.id))).map
          (fun d : Conn => (d.id, msg)) := by
        intro hm
        obtain ⟨e, hef, heq⟩ := List.mem_map.1 hm
        have hid : e.id = c.id := congrArg Prod.fst heq
        exact hdn (hid ▸ List.mem_map_of_mem Conn.id (List.mem_filter.1 hef).1)
      rw [List.count_eq_zero_of_not_mem hnm]
    · have hcid : c.id ≠ d.id := by
        intro hEq
        exact hdn (hEq ▸ List.mem_map_of_mem Conn.id hcl)
      have hpair : ((c.id, msg) : String × WireMsg) ≠ (d.id, msg) := by
        intro hEq
        exact hcid (congrArg Prod.fst hEq)
      by_cases hpd : (!([ex].contains d.id)) = true
      · rw [List.filter_cons, if_pos hpd, List.map_cons,
          List.count_cons_of_ne hpair, ih hnd2 hcl hne]
      · rw [List.filter_cons, if_neg hpd]
        exact ih hnd2 hcl hne

/-- Under unique connection ids, a non-excluded registered connection is
delivered the broadcast payload exactly once. -/
theorem broadcast_count_one (room : Room) (msg : WireMsg) (ex : String) (c : Conn)
    (h : (room.conns.map Conn.id).Nodup) (hc : c ∈ room.conns) (hne : c.id ≠ ex) :
    (room.broadcast msg [ex]).count (c.id, msg) = 1 :=
  count_broadcast_aux msg ex c room.conns h hc hne

/-- C1: on peer connect the relay sends the joiner a JSON `sync` message
whose `users` field is the number of connections registered in the room —
exactly the *other* peers, the joiner not yet being registered when
`onConnect` runs — and for an empty room that message is the literal
`\x7b"type":"sync","users":0\x7d`. -/
theorem onConnect_sync_counts_other_peers (doc : YDoc) (room : Room) (conn : Conn)
    (h : conn.id ∉ room.conns.map Conn.id) :
    (onConnect doc room conn).2.sends.get? 1
      = some (conn.id, WireMsg.text (syncMessage room.conns.length))
    ∧ syncMessage 0 = "\x7b\"type\":\"sync\",\"users\":0\x7d" :=
  ⟨rfl, rfl⟩

/-- Witness for C1: the first peer connecting to an empty room receives
`\x7b"type":"sync","users":0\x7d`. -/
theorem onConnect_sync_counts_other_peers_witness :
    (onConnect ∅ ⟨"r1", []⟩ ⟨"A"⟩).2.sends.get? 1
      = some ("A", WireMsg.text (syncMessage 0))
    ∧ syncMessage 0 = "\x7b\"type\":\"sync\",\"users\":0\x7d" :=
  onConnect_sync_counts_other_peers ∅ ⟨"r1", []⟩ ⟨"A"⟩ (by simp)

/-- C2: a binary message from peer P is first merged into the room's
replica and then broadcast unchanged to every connected peer except P; the
snapshot sent on connect is the full encoded state, and merging a snapshot
into an empty replica reproduces exactly the encoded replica (hence its N
shapes). -/
theorem onMessage_binary_merge_broadcast_bootstrap (doc : YDoc) (room : Room)
    (u : YUpdate) (sender : Conn) :
    (onMessage doc room (InMsg.binary u) sender).1 = applyUpdate doc u
    ∧ (onMessage doc room (InMsg.binary u) sender).2.sends
        = room.broadcast (WireMsg.binary u) [sender.id]
    ∧ (∀ c ∈ room.conns, c.id ≠ sender.id →
        (c.id, WireMsg.binary u) ∈ (onMessage doc room (InMsg.binary u) sender).2.sends)
    ∧ (∀ conn : Conn, (onConnect doc room conn).2.sends.get? 0
        = some (conn.id, WireMsg.binary (encodeStateAsUpdate doc)))
    ∧ applyUpdate ∅ (encodeStateAsUpdate doc) = doc := by
  refine ⟨rfl, rfl, ?_, fun conn => rfl, Finset.empty_union doc⟩
  intro c hc hne
  exact mem_broadcast_of_ne room (WireMsg.binary u) sender.id c hc hne

/-- Witness for C2: in a room holding shape entry s1 with peers A and B, a
binary update from A is merged and delivered to B, and the snapshot of the
replica merged into an empty replica gives back the same replica. -/
theorem onMessage_binary_merge_broadcast_bootstrap_witness :
    (onMessage {"s1"} ⟨"r1", [⟨"A"⟩, ⟨"B"⟩]⟩ (InMsg.binary {"s2"}) ⟨"A"⟩).1
      = applyUpdate {"s1"} {"s2"}
    ∧ ("B", WireMsg.binary {"s2"})
        ∈ (onMessage {"s1"} ⟨"r1", [⟨"A"⟩, ⟨"B"⟩]⟩ (InMsg.binary {"s2"}) ⟨"A"⟩).2.sends
    ∧ applyUpdate ∅ (encodeStateAsUpdate {"s1"}) = {"s1"} := by
  have h := onMessage_binary_merge_broadcast_bootstrap {"s1"} ⟨"r1", [⟨"A"⟩, ⟨"B"⟩]⟩
    {"s2"} ⟨"A"⟩
  exact ⟨h.1, h.2.2.1 ⟨"B"⟩ (by simp) (by simp), h.2.2.2.2⟩

/-- C3: every message that is binary or JSON-parseable text is delivered
verbatim to each other connected peer, and never back to its sender. -/
theorem relay_broadcast_excludes_sender (doc : YDoc) (room : Room) (sender : Conn) :
    (∀ u : YUpdate,
      (∀ c ∈ room.conns, c.id ≠ sender.id →
        (c.id, WireMsg.binary u) ∈ (onMessage doc room (InMsg.binary u) sender).2.sends)
      ∧ (∀ m, (sender.id, m) ∉ (onMessage doc room (InMsg.binary u) sender).2.sends))
    ∧ (∀ s : String, (jsonParse s).isSome →
      (∀ c ∈ room.conns, c.id ≠ sender.id →
        (c.id, WireMsg.text s) ∈ (onMessage doc room (InMsg.text s) sender).2.sends)
      ∧ (∀ m, (sender.id, m) ∉ (onMessage doc room (InMsg.text s) sender).2.sends)) := by
  constructor
  · intro u
    constructor
    · intro c hc hne
      exact mem_broadcast_of_ne room (WireMsg.binary u) sender.id c hc hne
    · intro m
      exact not_mem_broadcast_excluded room (WireMsg.binary u) sender.id m
  · intro s hs
    obtain ⟨v, hv⟩ := Option.isSome_iff_exists.1 hs
    constructor
    · intro c hc hne
      have hb := mem_broadcast_of_ne room (WireMsg.text s) sender.id c hc hne
      simpa [onMessage, hv] using hb
    · intro m hm
      have hb : (sender.id, m) ∈ room.broadcast (WireMsg.text s) [sender.id] := by
        simpa [onMessage, hv] using hm
      exact not_mem_broadcast_excluded room (WireMsg.text s) sender.id m hb

/-- Witness for C3: with peers A and B, a binary update and a JSON text
message sent by A each reach B and never return to A. -/
theorem relay_broadcast_excludes_sender_witness :
    ("B", WireMsg.binary {"s2"})
      ∈ (onMessage ∅ ⟨"r1", [⟨"A"⟩, ⟨"B"⟩]⟩ (InMsg.binary {"s2"}) ⟨"A"⟩).2.sends
    ∧ ("A", WireMsg.binary {"s2"})
      ∉ (onMessage ∅ ⟨"r1", [⟨"A"⟩, ⟨"B"⟩]⟩ (InMsg.binary {"s2"}) ⟨"A"⟩).2.sends
    ∧ ("B", WireMsg.text "\x7b\"a\":1\x7d")
      ∈ (onMessage ∅ ⟨"r1", [⟨"A"⟩, ⟨"B"⟩]⟩ (InMsg.text "\x7b\"a\":1\x7d") ⟨"A"⟩).2.sends
    ∧ ("A", WireMsg.text "\x7b\"a\":1\x7d")
      ∉ (onMessage ∅ ⟨"r1", [⟨"A"⟩, ⟨"B"⟩]⟩ (InMsg.text "\x7b\"a\":1\x7d") ⟨"A"⟩).2.sends := by
  have h := relay_broadcast_excludes_sender ∅ ⟨"r1", [⟨"A"⟩, ⟨"B"⟩]⟩ ⟨"A"⟩
  have ht := h.2 "\x7b\"a\":1\x7d" (by rfl)
  exact ⟨(h.1 {"s2"}).1 ⟨"B"⟩ (by simp) (by simp), (h.1 {"s2"}).2 _,
    ht.1 ⟨"B"⟩ (by simp) (by simp), ht.2 _⟩

/-- C4: when peer P disconnects, each peer registered in the room other
than P receives the `user-left` JSON message carrying P's id exactly once,
every delivered payload is that message, and P receives nothing. -/
theorem onClose_user_left_exactly_once (doc : YDoc) (room : Room) (conn : Conn)
    (h : (room.conns.map Conn.id).Nodup) :
    (∀ c ∈ room.conns, c.id ≠ conn.id →
      (onClose doc room conn).2.sends.count
        (c.id, WireMsg.text (userLeftMessage conn.id)) = 1)
    ∧ (∀ p ∈ (onClose doc room conn).2.sends,
        p.2 = WireMsg.text (userLeftMessage conn.id))
    ∧ (∀ m, (conn.id, m) ∉ (onClose doc room conn).2.sends) := by
  refine ⟨?_, ?_, ?_⟩
  · intro c hc hne
    exact broadcast_count_one room (WireMsg.text (userLeftMessage conn.id))
      conn.id c h hc hne
  · intro p hp
    exact broadcast_payload_eq room (WireMsg.text (userLeftMessage conn.id))
      [conn.id] p hp
  · intro m
    exact not_mem_broadcast_excluded room (WireMsg.text (userLeftMessage conn.id))
      conn.id m

/-- Witness for C4: A disconnecting from a room holding B and C delivers
the `user-left` message to B exactly once and nothing to A. -/
theorem onClose_user_left_exactly_once_witness :
    (onClose ∅ ⟨"r1", [⟨"B"⟩, ⟨"C"⟩]⟩ ⟨"A"⟩).2.sends.count
      ("B", WireMsg.text (userLeftMessage "A")) = 1
    ∧ ("A", WireMsg.text (userLeftMessage "A"))
      ∉ (onClose ∅ ⟨"r1", [⟨"B"⟩, ⟨"C"⟩]⟩ ⟨"A"⟩).2.sends := by
  have h := onClose_user_left_exactly_once ∅ ⟨"r1", [⟨"B"⟩, ⟨"C"⟩]⟩ ⟨"A"⟩ (by simp)
  exact ⟨h.1 ⟨"B"⟩ (by simp) (by simp), h.2.2 _⟩

/-- C5: a text message that fails JSON parsing produces no delivery to any
peer, no reply, no close, leaves the replica unchanged, and only logs the
parse error. -/
theorem onMessage_malformed_text_dropped (doc : YDoc) (room : Room) (sender : Conn)
    (s : String) (h : jsonParse s = none) :
    onMessage doc room (InMsg.text s) sender
      = (doc, { sends := [], logs := [],
                errs := ["Failed to parse message"], closes := [] }) := by
  simp [onMessage, h]

/-- Witness for C5: the non-JSON text "invalid-json" is dropped with only an
error log. -/
theorem onMessage_malformed_text_dropped_witness :
    jsonParse "invalid-json" = none
    ∧ onMessage ∅ ⟨"r1", [⟨"A"⟩, ⟨"B"⟩]⟩ (InMsg.text "invalid-json") ⟨"A"⟩
      = (∅, { sends := [], logs := [],
              errs := ["Failed to parse message"], closes := [] }) :=
  ⟨rfl, onMessage_malformed_text_dropped ∅ ⟨"r1", [⟨"A"⟩, ⟨"B"⟩]⟩ ⟨"A"⟩ "invalid-json" rfl⟩

/-- C6: on connect the relay emits exactly two messages, the binary snapshot
first and the `sync` JSON second, and every emission is addressed to the
newly connected peer only. -/
theorem onConnect_unicast_snapshot_then_sync (doc : YDoc) (room : Room) (conn : Conn) :
    (onConnect doc room conn).2.sends
      = [(conn.id, WireMsg.binary (encodeStateAsUpdate doc)),
         (conn.id, WireMsg.text (syncMessage room.conns.length))]
    ∧ (∀ p ∈ (onConnect doc room conn).2.sends, p.1 = conn.id) := by
  refine ⟨rfl, ?_⟩
  intro p hp
  simp only [onConnect, List.mem_cons, List.mem_singleton] at hp
  rcases hp with hp | hp | hp
  · rw [hp]
  · rw [hp]
  · exact absurd hp (List.not_mem_nil p)

/-- Witness for C6: concrete connect to a one-peer room emits the snapshot
then the sync message, both addressed to the joiner. -/
theorem onConnect_unicast_snapshot_then_sync_witness :
    (onConnect ∅ ⟨"r1", [⟨"B"⟩]⟩ ⟨"A"⟩).2.sends
      = [("A", WireMsg.binary (encodeStateAsUpdate ∅)),
         ("A", WireMsg.text (syncMessage 1))]
    ∧ ("A", WireMsg.text (syncMessage 1)).1 = "A" := by
  have h := onConnect_unicast_snapshot_then_sync ∅ ⟨"r1", [⟨"B"⟩]⟩ ⟨"A"⟩
  refine ⟨h.1, h.2 ("A", WireMsg.text (syncMessage 1)) ?_⟩
  rw [h.1]
  simp

/-- C7: the client's send primitive puts an `ArrayBuffer` or `Uint8Array`
payload on the wire as-is, stringifies every other value, and when no socket
is available it sends nothing at all — nothing queued, no error surfaced. -/
theorem send_binary_as_is_else_stringify_drop_unavailable :
    (∀ d : SendData, send false d = none)
    ∧ (∀ b : Bytes, send true (SendData.arrayBuffer b) = some (ClientOut.binary b))
    ∧ (∀ b : Bytes, send true (SendData.uint8Array b) = some (ClientOut.binary b))
    ∧ (∀ v : Json, send true (SendData.jsonValue v) = some (ClientOut.text (jsonStringify v))) :=
  ⟨fun _ => rfl, fun _ => rfl, fun _ => rfl, fun _ => rfl⟩

/-- Counterexample for C8 as stated: the text frame "null" parses
successfully to the JSON null value, yet the client routes it to the error
callback — line 332's `parsed.type` access throws on `null` — so it is not
delivered to the message callback as the parsed object. -/
theorem handleMessage_null_frame_counterexample :
    jsonParse "null" = some Json.null
    ∧ handleMessage (EventData.str "null") = Delivery.error
    ∧ handleMessage (EventData.str "null")
        ≠ Delivery.message (MsgPayload.json Json.null) :=
  ⟨rfl, rfl, fun h => Delivery.noConfusion h⟩

/-- C8 (amended): an inbound `ArrayBuffer` frame, and a `Blob` frame decoded
to the same flat bytes, reach the message callback as binary; a text frame
reaches the message callback parsed when JSON parsing succeeds with a
non-null document, and reaches only the error callback either when parsing
fails or when the parsed document is null (the post-parse logging property
access throws on null). -/
theorem handleMessage_classifies_frames_null_to_error :
    (∀ b : Bytes, handleMessage (EventData.arrayBuffer b)
        = Delivery.message (MsgPayload.binary b))
    ∧ (∀ b : Bytes, handleMessage (EventData.blob b)
        = Delivery.message (MsgPayload.binary b))
    ∧ (∀ (s : String) (v : Json), jsonParse s = some v → v ≠ Json.null →
        handleMessage (EventData.str s) = Delivery.message (MsgPayload.json v))
    ∧ (∀ s : String, jsonParse s = none →
        handleMessage (EventData.str s) = Delivery.error)
    ∧ (∀ s : String, jsonParse s = some Json.null →
        handleMessage (EventData.str s) = Delivery.error) := by
  refine ⟨fun _ => rfl, fun _ => rfl, ?_, ?_, ?_⟩
  · intro s v hv hne
    cases v with
    | null => exact absurd rfl hne
    | bool b => simp [handleMessage, hv]
    | num n => simp [handleMessage, hv]
    | str t => simp [handleMessage, hv]
    | arr xs => simp [handleMessage, hv]
    | obj fs => simp [handleMessage, hv]
  · intro s hs
    simp [handleMessage, hs]
  · intro s hs
    simp [handleMessage, hs]

/-- Witness for amended C8: a valid non-null JSON text frame is delivered
parsed, a non-JSON text frame goes to the error callback, and the "null"
frame goes to the error callback. -/
theorem handleMessage_classifies_frames_null_to_error_witness :
    handleMessage (EventData.str "\x7b\"a\":1\x7d")
      = Delivery.message (MsgPayload.json (Json.obj [("a", Json.num 1)]))
    ∧ handleMessage (EventData.str "not-json\x7b") = Delivery.error
    ∧ handleMessage (EventData.str "null") = Delivery.error :=
  ⟨handleMessage_classifies_frames_null_to_error.2.2.1 "\x7b\"a\":1\x7d"
      (Json.obj [("a", Json.num 1)]) rfl (fun h => Json.noConfusion h),
   handleMessage_classifies_frames_null_to_error.2.2.2.1 "not-json\x7b" rfl,
   handleMessage_classifies_frames_null_to_error.2.2.2.2 "null" rfl⟩

/-- C9: `updateShape` and `deleteShape` on an id absent from the shape
collection leave the collection unchanged and fire no local-change event
(so nothing is sent), with no error. -/
theorem update_delete_missing_id_noop (shapes : List Shape) (i : String)
    (patch : ShapePatch) (h : ∀ s ∈ shapes, s.id ≠ i) :
    updateShape shapes i patch = (shapes, []) ∧ deleteShape shapes i = (shapes, []) := by
  have hf : shapes.findIdx? (fun s => s.id == i) = none := by
    rw [List.findIdx?_eq_none_iff]
    intro s hs
    simp [h s hs]
  constructor
  · simp [updateShape, hf]
  · simp [deleteShape, hf]

/-- Witness for C9: updating or deleting id "b" in a collection holding only
id "a" changes nothing and fires no event. -/
theorem update_delete_missing_id_noop_witness :
    updateShape [⟨"a", []⟩] "b" ⟨none, []⟩ = ([⟨"a", []⟩], [])
    ∧ deleteShape [⟨"a", []⟩] "b" = ([⟨"a", []⟩], []) :=
  update_delete_missing_id_noop [⟨"a", []⟩] "b" ⟨none, []⟩ (by simp)

/-- C10: the room's replica changes only on a binary message (by merging the
update); text messages (whatever their parse outcome), connects, disconnects
and transport errors all leave it unchanged. -/
theorem replica_mutated_only_by_binary_message (doc : YDoc) (room : Room)
    (conn sender : Conn) (s : String) :
    (onConnect doc room conn).1 = doc
    ∧ (onMessage doc room (InMsg.text s) sender).1 = doc
    ∧ (onClose doc room conn).1 = doc
    ∧ (onError doc conn).1 = doc
    ∧ (∀ u : YUpdate, (onMessage doc room (InMsg.binary u) sender).1
        = applyUpdate doc u) := by
  refine ⟨rfl, ?_, rfl, rfl, fun u => rfl⟩
  cases hp : jsonParse s <;> simp [onMessage, hp]

end AppTemplate
